import Mathlib

/-!
Verification of the fixture compiler and construction protocol of
`pytest_factoryboy/fixture.py` (pytest-factoryboy).

The Python source is shallowly embedded:

* factory_boy factory classes become the `Factory` inductive (class name,
  abstract flag, optional model, ordered declarations);
* declaration values become the `Declaration` inductive, one constructor per
  `isinstance` branch the source distinguishes (`SubFactory`, `RelatedFactory`,
  `PostGeneration`, `PostGenerationMethodCall`, `LazyFixture`, plain value);
* the external name-casing utility `inflection.underscore` is out of scope of
  the source (third-party library) and is passed as an explicit parameter
  `u : String → String`;
* pytest's fixture resolution service `request.getfixturevalue` becomes an
  environment `env : String → Value`; evaluation functions additionally return
  the ordered list of names fetched through it (explicit effect log);
* the stateful `model_fixture` protocol returns an ordered event trace
  (`coordinator evaluate`, `cache write`, `enqueue`) together with its
  `Except` result, making the order of its side effects explicit.
-/

namespace PytestFactoryboy

/-- Separator used to join the model fixture name with attribute names
(`SEPARATOR = "__"` in the source). -/
def SEPARATOR : String := "__"

/-- Target of a `LazyFixture`: either a bare fixture name or a callable.
A callable is represented by an identifier together with its declared
positional-or-keyword parameter names (what `inspect.signature` reports);
invoking it is symbolic (see `Value.callResult`). -/
inductive LazyTarget where
  | name (s : String)
  | callable (fnId : Nat) (params : List String)
deriving DecidableEq, Repr

/-- The `LazyFixture` class: the wrapped target plus the `args` attribute
computed by `LazyFixture.__init__`. -/
structure LazyFixture where
  fixture : LazyTarget
  args : List String
deriving DecidableEq, Repr

/-- `LazyFixture.__init__`: if the wrapped fixture is callable, `args` is the
list of its positional-or-keyword parameter names; otherwise `args` is the
one-element list holding the bare name. -/
def LazyFixture.init (t : LazyTarget) : LazyFixture :=
  { fixture := t
    args :=
      match t with
      | .callable _ params => params
      | .name s => [s] }

/-- A Python value, as far as the embedded code inspects values: the
`NotProvided` sentinel, `None`, strings, numbers, opaque object instances,
`LazyFixture` objects, and the symbolic result of invoking a callable with
keyword arguments. -/
inductive Value where
  | notProvided
  | pyNone
  | strV (s : String)
  | natV (n : Nat)
  | obj (n : Nat)
  | lazy (lf : LazyFixture)
  | callResult (fnId : Nat) (kwargs : List (String × Value))

/-- Identity test against the `NotProvided` sentinel (`value is NotProvided`). -/
def Value.isNotProvided : Value → Bool
  | .notProvided => true
  | _ => false

/-- isinstance check for `LazyFixture`. -/
def Value.isLazy : Value → Bool
  | .lazy _ => true
  | _ => false

/-- The `_meta.model` attribute of a factory: either a model class (with its
`__name__`) or a string model name. -/
inductive PyModel where
  | cls (className : String)
  | strName (s : String)
deriving DecidableEq, Repr

mutual

/-- A factory_boy factory class: `__name__`, `_meta.abstract`, `_meta.model`
(`none` when the model is not specified), and `_meta.declarations` in
insertion order. -/
inductive Factory where
  | mk (className : String) (abstract : Bool) (model : Option PyModel)
      (declarations : List NamedDecl)

/-- One entry of `_meta.declarations`: attribute name and declaration value. -/
inductive NamedDecl where
  | mk (attr : String) (value : Declaration)

/-- A declaration value, one constructor per `isinstance` branch distinguished
by the source. `postGeneration` and `postGenerationMethodCall` carry the
declaration context (`_meta.post_declarations.contexts[attr]`): the extra
key/default pairs. -/
inductive Declaration where
  | plainD (v : Value)
  | lazyD (lf : LazyFixture)
  | subFactory (sub : Factory)
  | relatedFactory (sub : Factory)
  | postGeneration (context : List (String × Value))
  | postGenerationMethodCall (method_arg : Value) (context : List (String × Value))

end

def Factory.className : Factory → String
  | .mk c _ _ _ => c

def Factory.abstract : Factory → Bool
  | .mk _ a _ _ => a

def Factory.model : Factory → Option PyModel
  | .mk _ _ m _ => m

def Factory.declarations : Factory → List NamedDecl
  | .mk _ _ _ d => d

def NamedDecl.attr : NamedDecl → String
  | .mk a _ => a

def NamedDecl.value : NamedDecl → Declaration
  | .mk _ v => v

/-- `get_model_name`: `inflection.underscore(model.__name__)` unless the model
is a string, in which case the string itself. The `none` case is unreachable
for registered factories (`register` rejects factories without a model;
Python would raise an `AttributeError` there). -/
def get_model_name (u : String → String) (factory_class : Factory) : String :=
  match factory_class.model with
  | some (.cls n) => u n
  | some (.strName s) => s
  | none => ""

/-- `get_factory_name`: `inflection.underscore(factory_class.__name__)`. -/
def get_factory_name (u : String → String) (factory_class : Factory) : String :=
  u factory_class.className

/-- The `__name__` of the factory's model class, as accessed directly by
`inflection.underscore(subfactory_class._meta.model.__name__)`. For a string
or missing model Python would raise an `AttributeError`. -/
def model_class_name (factory_class : Factory) : String :=
  match factory_class.model with
  | some (.cls n) => n
  | _ => ""

/-- The `is_dep` predicate nested in `get_deps`: `RelatedFactory` declarations
are never construction-time dependencies; a `SubFactory` whose factory's model
name equals the parent model name is excluded (comparison with a missing
parent name is `False`, as `str == None` is in Python); every other
declaration (including post-generation declarations) is a dependency. -/
def is_dep (u : String → String) (parent_model_name : Option String)
    (value : Declaration) : Bool :=
  match value with
  | .relatedFactory _ => false
  | .subFactory sub =>
      match parent_model_name with
      | some p => !(get_model_name u sub == p)
      | none => true
  | _ => true

/-- `get_deps`: the fixture argument names for dependency injection — the
joined `model_name__attr` name of every declaration passing `is_dep`, in
declaration order. `model_name` defaults to the factory's own model name,
`parent_model_name` to the parent factory's model name when given. -/
def get_deps (u : String → String) (factory_class : Factory)
    (parent_factory_class : Option Factory) (model_name : Option String) :
    List String :=
  let mn := model_name.getD (get_model_name u factory_class)
  let parent_model_name := parent_factory_class.map (get_model_name u)
  (factory_class.declarations.filter (fun d => is_dep u parent_model_name d.value)).map
    (fun d => mn ++ SEPARATOR ++ d.attr)

/-- Which generated fixture implementation a `FixtureDef` refers to. -/
inductive FunctionName where
  | model_fixture
  | attr_fixture
  | factory_fixture
  | subfactory_fixture
deriving DecidableEq, Repr

/-- The `function_kwargs` of a `FixtureDef` (the static parameters handed to
the fixture implementation). -/
inductive FunctionKwargs where
  | factory_class (fc : Factory)
  | value (v : Value)
  | factory_name (s : String)

/-- The `FixtureDef` dataclass from `codegen.py`: fixture name, implementation
function, its static keyword arguments, dependency names and related names. -/
structure FixtureDef where
  name : String
  function_name : FunctionName
  function_kwargs : FunctionKwargs
  deps : List String
  related : List String

/-- `make_declaration_fixturedef`: the `FixtureDef` for one factory
declaration. The Python function also mutates its `related` list argument by
appending names; the second component of the result is exactly the list of
names it appends (in order), so the caller concatenates it. -/
def make_declaration_fixturedef (u : String → String) (attr_name : String)
    (value : Declaration) (factory_class : Factory) : FixtureDef × List String :=
  match value with
  | .subFactory sub =>
      let subfactory_deps := get_deps u sub (some factory_class) none
      let args := subfactory_deps ++ [u (model_class_name sub)]
      (⟨attr_name, .subfactory_fixture, .factory_class sub, args, []⟩, [])
  | .relatedFactory sub =>
      let subfactory_deps := get_deps u sub (some factory_class) none
      let related_model := get_model_name u sub
      let args := subfactory_deps ++ [related_model]
      (⟨attr_name, .subfactory_fixture, .factory_class sub, args, []⟩,
        related_model :: attr_name :: subfactory_deps)
  | .postGeneration _ =>
      (⟨attr_name, .attr_fixture, .value Value.pyNone, [], []⟩, [])
  | .postGenerationMethodCall m _ =>
      (⟨attr_name, .attr_fixture, .value m, [], []⟩, [])
  | .lazyD lf =>
      (⟨attr_name, .attr_fixture, .value (Value.lazy lf), lf.args, []⟩, [])
  | .plainD v =>
      (⟨attr_name, .attr_fixture, .value v, [], []⟩, [])

/-- The declarations of a factory after applying the registration-time
`overrides` mapping (`value = overrides.get(attr, value)`). -/
def effective_declarations (factory_class : Factory)
    (overrides : List (String × Declaration)) : List NamedDecl :=
  factory_class.declarations.map
    (fun d => NamedDecl.mk d.attr ((overrides.lookup d.attr).getD d.value))

/-- The attribute `FixtureDef`s yielded by `generate_fixturedefs`, one per
declaration in declaration order, named `model_name__attr`. -/
def attr_fixturedefs (u : String → String) (factory_class : Factory)
    (model_name : String) (overrides : List (String × Declaration)) :
    List FixtureDef :=
  (effective_declarations factory_class overrides).map
    (fun d =>
      (make_declaration_fixturedef u (model_name ++ SEPARATOR ++ d.attr) d.value
        factory_class).1)

/-- The `related` list accumulated by `generate_fixturedefs` while processing
declarations: the concatenation of the names each
`make_declaration_fixturedef` call appends. -/
def gathered_related (u : String → String) (factory_class : Factory)
    (model_name : String) (overrides : List (String × Declaration)) :
    List String :=
  ((effective_declarations factory_class overrides).map
    (fun d =>
      (make_declaration_fixturedef u (model_name ++ SEPARATOR ++ d.attr) d.value
        factory_class).2)).flatten

/-- The factory (blueprint-reference) `FixtureDef`, yielded only when the
factory fixture name is not already bound in the caller's namespace. -/
def factory_ref_fixturedefs (u : String → String) (factory_class : Factory)
    (caller_locals : List String) : List FixtureDef :=
  if get_factory_name u factory_class ∈ caller_locals then []
  else
    [⟨get_factory_name u factory_class, .factory_fixture,
      .factory_class factory_class, [], []⟩]

/-- The model `FixtureDef` yielded last by `generate_fixturedefs`: its deps
come from `get_deps` on the raw declarations, its related list is the one
gathered while processing declarations. -/
def model_fixturedef (u : String → String) (factory_class : Factory)
    (model_name : String) (overrides : List (String × Declaration)) :
    FixtureDef :=
  ⟨model_name, .model_fixture, .factory_name (get_factory_name u factory_class),
    get_deps u factory_class none (some model_name),
    gathered_related u factory_class model_name overrides⟩

/-- `generate_fixturedefs`: one `FixtureDef` per declaration in declaration
order, then the blueprint-reference `FixtureDef` when its name is new, then
the model `FixtureDef`. -/
def generate_fixturedefs (u : String → String) (factory_class : Factory)
    (model_name : String) (overrides : List (String × Declaration))
    (caller_locals : List String) : List FixtureDef :=
  attr_fixturedefs u factory_class model_name overrides
    ++ factory_ref_fixturedefs u factory_class caller_locals
    ++ [model_fixturedef u factory_class model_name overrides]

/-- The two assertion failures `register` can raise. -/
inductive RegisterError where
  | abstractFactory
  | modelNotSpecified
deriving DecidableEq, Repr

/-- `register`: rejects abstract factories and factories without a model
before generating anything; otherwise generates the fixture definitions for
the model name (defaulting to the factory's model name). -/
def register (u : String → String) (factory_class : Factory)
    (name : Option String) (overrides : List (String × Declaration))
    (caller_locals : List String) : Except RegisterError (List FixtureDef) :=
  if factory_class.abstract then .error .abstractFactory
  else if factory_class.model.isNone then .error .modelNotSpecified
  else
    let model_name := name.getD (get_model_name u factory_class)
    .ok (generate_fixturedefs u factory_class model_name overrides caller_locals)

/-- `LazyFixture.evaluate`: for a callable target, fetch each name of `args`
via `request.getfixturevalue` and invoke the callable with them as keyword
arguments; for a bare name, a single fetch of that name. The second component
is the ordered list of names fetched through `request.getfixturevalue`. -/
def LazyFixture.evaluate (lf : LazyFixture) (env : String → Value) :
    Value × List String :=
  match lf.fixture with
  | .callable fnId _ =>
      (Value.callResult fnId (lf.args.map (fun a => (a, env a))), lf.args)
  | .name s => (env s, [s])

/-- Module-level `evaluate`: delegate to `LazyFixture.evaluate` for lazy
fixtures, return every other value unchanged (fetching nothing). -/
def evaluate (env : String → Value) (value : Value) : Value × List String :=
  match value with
  | .lazy lf => lf.evaluate env
  | v => (v, [])

/-- Whether a declaration is a factory_boy post-generation declaration
(`PostGenerationDeclaration`): `RelatedFactory`, `PostGeneration` and
`PostGenerationMethodCall` are, everything else is a pre-declaration. -/
def Declaration.is_post : Declaration → Bool
  | .relatedFactory _ => true
  | .postGeneration _ => true
  | .postGenerationMethodCall _ _ => true
  | _ => false

/-- `_meta.pre_declarations`: declarations usable as constructor arguments. -/
def pre_declarations (factory_class : Factory) : List NamedDecl :=
  factory_class.declarations.filter (fun d => !d.value.is_post)

/-- `_meta.post_declarations` (in declaration order, which is the order
`DeclarationSet.sorted` yields). -/
def post_declarations (factory_class : Factory) : List NamedDecl :=
  factory_class.declarations.filter (fun d => d.value.is_post)

/-- The declaration context (`post_declarations.contexts[attr]`) of a
post-generation declaration: its extra key/default pairs. -/
def Declaration.contextOf : Declaration → List (String × Value)
  | .postGeneration ctx => ctx
  | .postGenerationMethodCall _ ctx => ctx
  | _ => []

/-- The `PostGenerationContext` handed to a deferred post-generation call. -/
structure PostGenerationContext where
  value_provided : Bool
  value : Value
  extra : List (String × Value)

/-- The zero-argument action a `DeferredFunction` closes over: a related
deferred function resolves a fixture by name; a post-generation deferred
function invokes `declaration.call(instance, step, context)`. -/
inductive DeferredAction where
  | getfixturevalue (name : String)
  | postgen_call (decl : Declaration) (inst : Value)
      (context : PostGenerationContext)

/-- The `DeferredFunction` dataclass: name, originating factory, reverse
association flag and the deferred action. -/
structure DeferredFunction where
  name : String
  factory : Factory
  is_related : Bool
  action : DeferredAction

/-- `make_deferred_related`: deferred unit for a `RelatedFactory` declaration.
Its action resolves the fixture named `fixture__attr`. -/
def make_deferred_related (factory : Factory) (fixture : String) (attr : String) :
    DeferredFunction :=
  let nm := fixture ++ SEPARATOR ++ attr
  ⟨nm, factory, true, .getfixturevalue nm⟩

/-- `make_deferred_postgen`: deferred unit for a post-generation declaration.
Its action invokes the declaration against the already-built instance with
the given context. -/
def make_deferred_postgen (factory_class : Factory) (fixture : String)
    (inst : Value) (attr : String) (decl : Declaration)
    (context : PostGenerationContext) : DeferredFunction :=
  ⟨fixture ++ SEPARATOR ++ attr, factory_class, false,
    .postgen_call decl inst context⟩

/-- An observable side effect of `model_fixture`, in the order performed:
asking the factoryboy request coordinator to evaluate pending deferred units,
writing the built instance into the pytest fixture cache, and handing a batch
of deferred units to the coordinator (`factoryboy_request.defer`). -/
inductive Event where
  | coordEvaluate
  | cacheWrite (name : String) (v : Value)
  | enqueue (units : List DeferredFunction)

def Event.isEnqueue : Event → Bool
  | .enqueue _ => true
  | _ => false

def Event.isCacheWrite : Event → Bool
  | .cacheWrite _ _ => true
  | _ => false

/-- An exception raised by the model constructor. -/
structure PyExn where
  msg : String
deriving DecidableEq, Repr

/-- The constructor keyword arguments collected by `model_fixture`: for every
pre-declaration whose `fixture_name__attr` fixture is among the generated
fixture's argument names, the evaluated value of that fixture. -/
def model_kwargs (fixture_name : String) (factory_class : Factory)
    (env : String → Value) (argnames : List String) : List (String × Value) :=
  (pre_declarations factory_class).filterMap
    (fun d =>
      let argname := fixture_name ++ SEPARATOR ++ d.attr
      if argname ∈ argnames then some (d.attr, (evaluate env (env argname)).1)
      else none)

/-- The deferred units `model_fixture` builds for the post-generation
declarations of the factory: a related unit per `RelatedFactory`, otherwise a
post-generation unit whose context carries the extra values (fixture-supplied
when `argname__key` is an argument name, else the declared default), the
evaluated extracted value, and the `value_provided` flag (`False` exactly when
the extracted value is the `NotProvided` sentinel). -/
def build_deferred (fixture_name : String) (factory_class : Factory)
    (env : String → Value) (argnames : List String) (inst : Value) :
    List DeferredFunction :=
  (post_declarations factory_class).map
    (fun d =>
      match d.value with
      | .relatedFactory _ => make_deferred_related factory_class fixture_name d.attr
      | decl =>
          let argname := fixture_name ++ SEPARATOR ++ d.attr
          let extra := decl.contextOf.filterMap
            (fun kv =>
              if kv.1 = "" then none
              else
                let post_attr := argname ++ SEPARATOR ++ kv.1
                if post_attr ∈ argnames then
                  some (kv.1, (evaluate env (env post_attr)).1)
                else some kv)
          let postgen_value := (evaluate env (env argname)).1
          make_deferred_postgen factory_class fixture_name inst d.attr decl
            ⟨!postgen_value.isNotProvided, postgen_value, extra⟩)

/-- `model_fixture`: the two-phase construction protocol. Phase 0 asks the
coordinator to evaluate pending units; pre-construction collects the keyword
arguments and invokes the construction strategy (`construct`, the external
`Factory(**kwargs)` call, which may raise); on success the instance is written
into the pytest fixture cache under the current fixture name, the deferred
units are built and enqueued, the coordinator is asked to evaluate again and
the instance is returned. The first component is the ordered trace of
observable side effects, the second the result. -/
def model_fixture (fixture_name : String) (factory_class : Factory)
    (env : String → Value) (argnames : List String)
    (construct : List (String × Value) → Except PyExn Value) :
    List Event × Except PyExn (Value × List DeferredFunction) :=
  let kwargs := model_kwargs fixture_name factory_class env argnames
  match construct kwargs with
  | .error e => ([Event.coordEvaluate], .error e)
  | .ok inst =>
      let deferred := build_deferred fixture_name factory_class env argnames inst
      ([Event.coordEvaluate, Event.cacheWrite fixture_name inst,
        Event.enqueue deferred, Event.coordEvaluate],
        .ok (inst, deferred))

/-- The pytest fixture cache resulting from a trace of events: every
`cacheWrite` records its value under its name (later writes shadow earlier
ones). -/
def cacheAfter (evs : List Event) : List (String × Value) :=
  evs.foldl
    (fun c e =>
      match e with
      | Event.cacheWrite n v => (n, v) :: c
      | _ => c)
    []

/-- Fixture resolution against a cache: a cached name resolves to its cached
value; only an uncached name triggers a fresh construction. -/
def resolve_fixture (cache : List (String × Value)) (name : String)
    (construct_fresh : Unit → Value) : Value :=
  match cache.lookup name with
  | some v => v
  | none => construct_fresh ()

/-- Whether a declaration is a nested-object reference whose nested factory
resolves to the given model name (the declarations `is_dep` excludes when that
name is the parent model name). -/
def refs_model (u : String → String) (target : String) : Declaration → Bool
  | .subFactory sub => get_model_name u sub == target
  | _ => false

/-- Whether a declaration is a reverse association (`RelatedFactory`). -/
def Declaration.is_related_factory : Declaration → Bool
  | .relatedFactory _ => true
  | _ => false

/-! Sample factories used to instantiate the theorems on concrete inputs.
`author_model_factory` is the nested author factory the book factory refers
back to; `author_factory` declares a reverse association onto the book
factory, whose own `author` declaration resolves back to the model name
`author`. -/

def author_model_factory : Factory :=
  .mk "author_factory" false (some (.cls "author")) []

def book_factory : Factory :=
  .mk "book_factory" false (some (.cls "book"))
    [.mk "author" (.subFactory author_model_factory),
      .mk "title" (.plainD (.strV "T"))]

def author_factory : Factory :=
  .mk "author_factory" false (some (.cls "author"))
    [.mk "name" (.plainD (.strV "N")),
      .mk "books" (.relatedFactory book_factory)]

def user_factory : Factory :=
  .mk "user_factory" false (some (.cls "user"))
    [.mk "password" (.postGeneration [])]

def abstract_factory : Factory :=
  .mk "base_factory" true (some (.cls "base")) []

/-! Helper lemmas. -/

theorem str_append_left_cancel {a b c : String} (h : a ++ b = a ++ c) : b = c := by
  have h2 := congrArg String.data h
  simp only [String.data_append] at h2
  exact String.ext (List.append_cancel_left h2)

theorem make_declaration_fixturedef_name (u : String → String) (n : String)
    (v : Declaration) (fc : Factory) :
    (make_declaration_fixturedef u n v fc).1.name = n := by
  cases v <;> rfl

theorem make_declaration_fixturedef_function_name (u : String → String)
    (n : String) (v : Declaration) (fc : Factory) :
    (make_declaration_fixturedef u n v fc).1.function_name
        = FunctionName.subfactory_fixture
      ∨ (make_declaration_fixturedef u n v fc).1.function_name
        = FunctionName.attr_fixture := by
  cases v
  case subFactory => left; rfl
  case relatedFactory => left; rfl
  all_goals right; rfl

theorem is_dep_some_eq (u : String → String) (p : String) (v : Declaration) :
    is_dep u (some p) v
      = (is_dep u none v && !refs_model u p v) := by
  cases v <;> simp [is_dep, refs_model]

theorem zip_self_map {α β : Type} (l : List α) (f : α → β) :
    l.zip (l.map f) = l.map (fun a => (a, f a)) := by
  induction l with
  | nil => rfl
  | cons a t ih =>
      simp only [List.map_cons, List.zip_cons_cons, ih]

/-! Claim theorems. -/

/-- Claim C4: for every blueprint with declarations in insertion order
registered under `model_name`, the builder emits the attribute
`FixtureDefinition`s named `model_name__attr` in exactly declaration order,
followed by the blueprint-reference definition (only when its name is not
already bound in the caller's namespace) and the model definition last. -/
theorem claim_c4_emission_order (u : String → String) (fc : Factory)
    (model_name : String) (overrides : List (String × Declaration))
    (caller_locals : List String) :
    (generate_fixturedefs u fc model_name overrides caller_locals).map
        FixtureDef.name
      = fc.declarations.map (fun d => model_name ++ SEPARATOR ++ d.attr)
        ++ (if get_factory_name u fc ∈ caller_locals then []
            else [get_factory_name u fc])
        ++ [model_name] := by
  unfold generate_fixturedefs
  rw [List.map_append, List.map_append]
  have hattr : (attr_fixturedefs u fc model_name overrides).map FixtureDef.name
      = fc.declarations.map (fun d => model_name ++ SEPARATOR ++ d.attr) := by
    unfold attr_fixturedefs effective_declarations
    rw [List.map_map, List.map_map]
    apply List.map_congr_left
    intro d _
    simp only [Function.comp_apply, NamedDecl.attr, NamedDecl.value,
      make_declaration_fixturedef_name]
  have href : (factory_ref_fixturedefs u fc caller_locals).map FixtureDef.name
      = (if get_factory_name u fc ∈ caller_locals then []
          else [get_factory_name u fc]) := by
    unfold factory_ref_fixturedefs
    by_cases h : get_factory_name u fc ∈ caller_locals <;> simp [h]
  rw [hattr, href]
  rfl

/-- Claim C5: evaluating a `LazyFixture` wrapping a callable with declared
parameter names `ps` fetches exactly those names through the resolver and
invokes the callable with them as keyword arguments; evaluating a
`LazyFixture` wrapping a bare name performs exactly one fetch of that name;
evaluating any non-lazy value returns the value itself unchanged, fetching
nothing. -/
theorem claim_c5_lazy_evaluate (env : String → Value) (fnId : Nat)
    (ps : List String) (nm : String) (v : Value) (hv : v.isLazy = false) :
    evaluate env (Value.lazy (LazyFixture.init (.callable fnId ps)))
        = (Value.callResult fnId (ps.map (fun a => (a, env a))), ps)
      ∧ evaluate env (Value.lazy (LazyFixture.init (.name nm))) = (env nm, [nm])
      ∧ evaluate env v = (v, []) := by
  refine ⟨rfl, rfl, ?_⟩
  cases v <;> first
    | rfl
    | exact absurd hv (by simp [Value.isLazy])

/-- Witness for C5 at a concrete resolver, a two-parameter callable, the bare
name `"foo"` and a plain numeric value. -/
theorem claim_c5_witness :
    (Value.natV 5).isLazy = false
      ∧ (evaluate (fun s => Value.strV s)
            (Value.lazy (LazyFixture.init (.callable 0 ["x", "y"])))
          = (Value.callResult 0 [("x", Value.strV "x"), ("y", Value.strV "y")],
              ["x", "y"])
        ∧ evaluate (fun s => Value.strV s)
            (Value.lazy (LazyFixture.init (.name "foo")))
          = (Value.strV "foo", ["foo"])
        ∧ evaluate (fun s => Value.strV s) (Value.natV 5) = (Value.natV 5, [])) :=
  ⟨rfl, claim_c5_lazy_evaluate (fun s => Value.strV s) 0 ["x", "y"] "foo"
    (Value.natV 5) rfl⟩

/-- Claim C7: registering an abstract blueprint, or one whose target model
type is not specified, fails immediately: `register` returns an error and no
fixture definition list is produced. -/
theorem claim_c7_register_rejects (u : String → String) (fc : Factory)
    (name : Option String) (overrides : List (String × Declaration))
    (caller_locals : List String)
    (h : fc.abstract = true ∨ fc.model = none) :
    ∃ e, register u fc name overrides caller_locals = Except.error e := by
  unfold register
  rcases h with h | h
  · rw [h]
    exact ⟨.abstractFactory, rfl⟩
  · rw [h]
    cases ha : fc.abstract
    · exact ⟨.modelNotSpecified, rfl⟩
    · exact ⟨.abstractFactory, rfl⟩

/-- Witness for C7 at a concrete abstract factory. -/
theorem claim_c7_witness :
    abstract_factory.abstract = true
      ∧ ∃ e, register (fun s => s) abstract_factory none [] []
          = Except.error e :=
  ⟨rfl, claim_c7_register_rejects (fun s => s) abstract_factory none [] []
    (Or.inl rfl)⟩

/-- Claim C8: the builder emits exactly one blueprint-reference
`FixtureDefinition` (kind `factory_fixture`) precisely when the
blueprint-reference name is not already present in the caller's existing
names, and none when it is. -/
theorem claim_c8_factory_ref_count (u : String → String) (fc : Factory)
    (model_name : String) (overrides : List (String × Declaration))
    (caller_locals : List String) :
    ((generate_fixturedefs u fc model_name overrides caller_locals).countP
        (fun fd => fd.function_name == FunctionName.factory_fixture))
      = if get_factory_name u fc ∈ caller_locals then 0 else 1 := by
  unfold generate_fixturedefs
  rw [List.countP_append, List.countP_append]
  have h1 : (attr_fixturedefs u fc model_name overrides).countP
      (fun fd => fd.function_name == FunctionName.factory_fixture) = 0 := by
    rw [List.countP_eq_zero]
    intro fd hfd
    rcases List.mem_map.mp hfd with ⟨d, _, rfl⟩
    rcases make_declaration_fixturedef_function_name u
        (model_name ++ SEPARATOR ++ d.attr) d.value fc with h | h <;>
      simp [h]
  have h3 : List.countP
      (fun fd => fd.function_name == FunctionName.factory_fixture)
      [model_fixturedef u fc model_name overrides] = 0 := by
    simp [model_fixturedef]
  rw [h1, h3]
  unfold factory_ref_fixturedefs
  by_cases h : get_factory_name u fc ∈ caller_locals <;> simp [h]

/-- Rewriting of `get_deps` with a parent factory: the dependency names are
the nested factory's own dependency names (the `is_dep`-true declarations with
no parent) minus those declarations that reference back onto the parent model
name. -/
theorem get_deps_parent_eq (u : String → String) (sub fc : Factory) :
    get_deps u sub (some fc) none
      = (sub.declarations.filter
          (fun d => is_dep u none d.value
            && !refs_model u (get_model_name u fc) d.value)).map
          (fun d => get_model_name u sub ++ SEPARATOR ++ d.attr) := by
  simp only [get_deps, Option.getD_none, Option.map_some']
  congr 1
  apply List.filter_congr
  intro d _
  exact is_dep_some_eq u (get_model_name u fc) d.value

/-- Claim C2: a `RelatedFactory` declaration's fixture name is never among the
model definition's dependency names, while the nested model's fixture name,
the attribute's own fixture name, and every dependency name of the nested
blueprint are all in the model definition's related list. -/
theorem claim_c2_reverse_association (u : String → String) (fc sub : Factory)
    (model_name attr dep : String) (overrides : List (String × Declaration))
    (hmem : NamedDecl.mk attr (.relatedFactory sub) ∈ fc.declarations)
    (hnodup : (fc.declarations.map NamedDecl.attr).Nodup)
    (hover : overrides.lookup attr = none)
    (hdep : dep ∈ get_deps u sub (some fc) none) :
    (model_name ++ SEPARATOR ++ attr)
        ∉ (model_fixturedef u fc model_name overrides).deps
      ∧ get_model_name u sub
        ∈ (model_fixturedef u fc model_name overrides).related
      ∧ (model_name ++ SEPARATOR ++ attr)
        ∈ (model_fixturedef u fc model_name overrides).related
      ∧ dep ∈ (model_fixturedef u fc model_name overrides).related := by
  have hcontrib :
      (get_model_name u sub :: (model_name ++ SEPARATOR ++ attr)
          :: get_deps u sub (some fc) none)
        ∈ (effective_declarations fc overrides).map
            (fun d => (make_declaration_fixturedef u
                (model_name ++ SEPARATOR ++ d.attr) d.value fc).2) := by
    have h1 : NamedDecl.mk attr (.relatedFactory sub)
        ∈ effective_declarations fc overrides := by
      have h0 := List.mem_map_of_mem
        (fun d => NamedDecl.mk d.attr ((overrides.lookup d.attr).getD d.value))
        hmem
      simpa [effective_declarations, NamedDecl.attr, NamedDecl.value, hover]
        using h0
    have h2 := List.mem_map_of_mem
      (fun d => (make_declaration_fixturedef u
          (model_name ++ SEPARATOR ++ d.attr) d.value fc).2) h1
    simpa [NamedDecl.attr, NamedDecl.value, make_declaration_fixturedef]
      using h2
  have hmemrel : ∀ x,
      x ∈ (get_model_name u sub :: (model_name ++ SEPARATOR ++ attr)
          :: get_deps u sub (some fc) none) →
      x ∈ (model_fixturedef u fc model_name overrides).related := by
    intro x hx
    show x ∈ gathered_related u fc model_name overrides
    unfold gathered_related
    exact List.mem_flatten.mpr ⟨_, hcontrib, hx⟩
  refine ⟨?_, ?_, ?_, ?_⟩
  · intro hx
    have hx' : (model_name ++ SEPARATOR ++ attr)
        ∈ get_deps u fc none (some model_name) := hx
    simp only [get_deps, Option.getD_some, Option.map_none'] at hx'
    rcases List.mem_map.mp hx' with ⟨d, hdf, hname⟩
    rcases List.mem_filter.mp hdf with ⟨hdmem, hdept⟩
    have hattr_eq : d.attr = attr :=
      str_append_left_cancel hname
    have hd_eq : d = NamedDecl.mk attr (.relatedFactory sub) :=
      List.inj_on_of_nodup_map hnodup hdmem hmem hattr_eq
    rw [hd_eq] at hdept
    simp [is_dep, NamedDecl.value] at hdept
  · exact hmemrel _ (List.mem_cons_self _ _)
  · exact hmemrel _ (List.mem_cons_of_mem _ (List.mem_cons_self _ _))
  · exact hmemrel _ (List.mem_cons_of_mem _ (List.mem_cons_of_mem _ hdep))

/-- Witness for C2 at the concrete author/book factories: the author model
definition depends only on `author__name`, never on `author__books`, while
`book`, `author__books` and the book blueprint's dependency `book__title` are
all in its related list. -/
theorem claim_c2_witness :
    ("author__books" ∉ (model_fixturedef (fun s => s) author_factory "author" []).deps
      ∧ "book" ∈ (model_fixturedef (fun s => s) author_factory "author" []).related
      ∧ "author__books"
        ∈ (model_fixturedef (fun s => s) author_factory "author" []).related
      ∧ "book__title"
        ∈ (model_fixturedef (fun s => s) author_factory "author" []).related) :=
  claim_c2_reverse_association (fun s => s) author_factory book_factory
    "author" "books" "book__title" []
    (List.Mem.tail _ (List.Mem.head _)) (by decide) rfl (by decide)

/-- Claim C3: a `SubFactory` declaration's emitted fixture definition depends
on the nested blueprint's own dependency names with every declaration that
resolves back to the current (parent) model name excluded, plus the nested
model's own fixture name; in particular a nested declaration referencing the
parent model name never yields a construction-time dependency (no cycle). -/
theorem claim_c3_nested_exclusion (u : String → String) (fc sub sub2 : Factory)
    (attr_name a cn : String)
    (hm : sub.model = some (PyModel.cls cn))
    (hnodup : (sub.declarations.map NamedDecl.attr).Nodup)
    (hback : NamedDecl.mk a (.subFactory sub2) ∈ sub.declarations)
    (heq : get_model_name u sub2 = get_model_name u fc) :
    (make_declaration_fixturedef u attr_name (.subFactory sub) fc).1.deps
        = ((sub.declarations.filter
              (fun d => is_dep u none d.value
                && !refs_model u (get_model_name u fc) d.value)).map
            (fun d => get_model_name u sub ++ SEPARATOR ++ d.attr))
          ++ [get_model_name u sub]
      ∧ (get_model_name u sub ++ SEPARATOR ++ a)
        ∉ get_deps u sub (some fc) none := by
  constructor
  · have hdeps : (make_declaration_fixturedef u attr_name
        (.subFactory sub) fc).1.deps
        = get_deps u sub (some fc) none ++ [u (model_class_name sub)] := rfl
    have hmcn : u (model_class_name sub) = get_model_name u sub := by
      simp [model_class_name, get_model_name, hm]
    rw [hdeps, hmcn, get_deps_parent_eq]
  · intro hx
    simp only [get_deps, Option.getD_none, Option.map_some'] at hx
    rcases List.mem_map.mp hx with ⟨d, hdf, hname⟩
    rcases List.mem_filter.mp hdf with ⟨hdmem, hdept⟩
    have hattr_eq : d.attr = a :=
      str_append_left_cancel hname
    have hd_eq : d = NamedDecl.mk a (.subFactory sub2) :=
      List.inj_on_of_nodup_map hnodup hdmem hback hattr_eq
    rw [hd_eq] at hdept
    simp [is_dep, NamedDecl.value, heq] at hdept

/-- Witness for C3 at the concrete factories: the book factory's `author`
declaration references the parent model name `author`, so the emitted
`author__books` definition depends only on `book__title` and `book`, and
`book__author` is excluded from the nested dependency set. -/
theorem claim_c3_witness :
    ((make_declaration_fixturedef (fun s => s) "author__books"
          (.subFactory book_factory) author_factory).1.deps
        = ((book_factory.declarations.filter
              (fun d => is_dep (fun s => s) none d.value
                && !refs_model (fun s => s)
                    (get_model_name (fun s => s) author_factory) d.value)).map
            (fun d => get_model_name (fun s => s) book_factory
              ++ SEPARATOR ++ d.attr))
          ++ [get_model_name (fun s => s) book_factory]
      ∧ (get_model_name (fun s => s) book_factory ++ SEPARATOR ++ "author")
        ∉ get_deps (fun s => s) book_factory (some author_factory) none) :=
  claim_c3_nested_exclusion (fun s => s) author_factory book_factory
    author_model_factory "author__books" "author" "book" rfl (by decide)
    (List.Mem.head _) rfl

/-- Inversion for a successful `model_fixture` run: the constructor succeeded
on the collected keyword arguments, and the returned deferred units are the
ones built for the factory's post-generation declarations. -/
theorem model_fixture_ok_inv (fixture_name : String) (fc : Factory)
    (env : String → Value) (argnames : List String)
    (construct : List (String × Value) → Except PyExn Value)
    (inst : Value) (deferred : List DeferredFunction)
    (h : (model_fixture fixture_name fc env argnames construct).2
        = Except.ok (inst, deferred)) :
    construct (model_kwargs fixture_name fc env argnames) = Except.ok inst
      ∧ deferred = build_deferred fixture_name fc env argnames inst := by
  cases hc : construct (model_kwargs fixture_name fc env argnames) with
  | error e =>
      have hms : (model_fixture fixture_name fc env argnames construct).2
          = Except.error e := by
        simp only [model_fixture, hc]
      rw [hms] at h
      exact absurd h (by simp)
  | ok v =>
      have hms : (model_fixture fixture_name fc env argnames construct).2
          = Except.ok (v, build_deferred fixture_name fc env argnames v) := by
        simp only [model_fixture, hc]
      rw [hms] at h
      simp only [Except.ok.injEq, Prod.mk.injEq] at h
      obtain ⟨h1, h2⟩ := h
      subst h1
      exact ⟨rfl, h2.symm⟩

/-- Claim C1: a successful model fixture resolution writes the built instance
into the fixture cache under the model's own fixture name strictly before the
deferred units are enqueued; at that point a lookup of the fixture name in
the cache yields exactly the built instance, so resolving that name cannot
trigger a second construction. -/
theorem claim_c1_early_cache (fixture_name : String) (fc : Factory)
    (env : String → Value) (argnames : List String)
    (construct : List (String × Value) → Except PyExn Value)
    (inst : Value) (deferred : List DeferredFunction)
    (h : (model_fixture fixture_name fc env argnames construct).2
        = Except.ok (inst, deferred)) :
    ∃ pre post,
      (model_fixture fixture_name fc env argnames construct).1
          = pre ++ Event.enqueue deferred :: post
        ∧ (∀ e ∈ pre, e.isEnqueue = false)
        ∧ (cacheAfter pre).lookup fixture_name = some inst
        ∧ ∀ construct_fresh : Unit → Value,
            resolve_fixture (cacheAfter pre) fixture_name construct_fresh
              = inst := by
  obtain ⟨hcok, hdeq⟩ :=
    model_fixture_ok_inv fixture_name fc env argnames construct inst deferred h
  have hms : model_fixture fixture_name fc env argnames construct
      = ([Event.coordEvaluate, Event.cacheWrite fixture_name inst,
          Event.enqueue (build_deferred fixture_name fc env argnames inst),
          Event.coordEvaluate],
        Except.ok (inst, build_deferred fixture_name fc env argnames inst)) := by
    simp only [model_fixture, hcok]
  refine ⟨[Event.coordEvaluate, Event.cacheWrite fixture_name inst],
    [Event.coordEvaluate], ?_, ?_, ?_, ?_⟩
  · rw [hms, hdeq]
    rfl
  · intro e he
    simp only [List.mem_cons, List.not_mem_nil, or_false] at he
    rcases he with rfl | rfl <;> rfl
  · show List.lookup fixture_name [(fixture_name, inst)] = some inst
    simp [List.lookup]
  · intro construct_fresh
    show resolve_fixture [(fixture_name, inst)] fixture_name construct_fresh
        = inst
    simp [resolve_fixture, List.lookup]

/-- Witness for C1 at a concrete factory with no declarations: the trace is
split around the enqueue event with the cache already holding the instance. -/
theorem claim_c1_witness :
    ∃ pre post,
      (model_fixture "author" author_model_factory (fun _ => Value.pyNone) []
          (fun _ => Except.ok (Value.obj 7))).1
          = pre ++ Event.enqueue [] :: post
        ∧ (∀ e ∈ pre, e.isEnqueue = false)
        ∧ (cacheAfter pre).lookup "author" = some (Value.obj 7)
        ∧ ∀ construct_fresh : Unit → Value,
            resolve_fixture (cacheAfter pre) "author" construct_fresh
              = Value.obj 7 :=
  claim_c1_early_cache "author" author_model_factory (fun _ => Value.pyNone) []
    (fun _ => Except.ok (Value.obj 7)) (Value.obj 7) [] rfl

/-- Claim C6: when the constructor raises during pre-construction, the error
propagates out of `model_fixture`, and the trace contains no cache write and
no enqueue — no instance is cached and no deferred unit reaches the
coordinator. -/
theorem claim_c6_construction_error (fixture_name : String) (fc : Factory)
    (env : String → Value) (argnames : List String)
    (construct : List (String × Value) → Except PyExn Value) (e : PyExn)
    (h : construct (model_kwargs fixture_name fc env argnames)
        = Except.error e) :
    (model_fixture fixture_name fc env argnames construct).2 = Except.error e
      ∧ ∀ ev ∈ (model_fixture fixture_name fc env argnames construct).1,
          ev.isCacheWrite = false ∧ ev.isEnqueue = false := by
  have hms : model_fixture fixture_name fc env argnames construct
      = ([Event.coordEvaluate], Except.error e) := by
    simp only [model_fixture, h]
  rw [hms]
  refine ⟨rfl, ?_⟩
  intro ev hev
  rw [List.mem_singleton] at hev
  subst hev
  exact ⟨rfl, rfl⟩

/-- Witness for C6 at a concrete failing constructor. -/
theorem claim_c6_witness :
    (model_fixture "author" author_model_factory (fun _ => Value.pyNone) []
        (fun _ => Except.error ⟨"boom"⟩)).2 = Except.error ⟨"boom"⟩
      ∧ ∀ ev ∈ (model_fixture "author" author_model_factory
          (fun _ => Value.pyNone) [] (fun _ => Except.error ⟨"boom"⟩)).1,
          ev.isCacheWrite = false ∧ ev.isEnqueue = false :=
  claim_c6_construction_error "author" author_model_factory
    (fun _ => Value.pyNone) [] (fun _ => Except.error ⟨"boom"⟩) ⟨"boom"⟩ rfl

/-- Claim C9: every post-generation deferred unit's context has
`value_provided` true exactly when the evaluated extracted value is not the
`NotProvided` sentinel. -/
theorem claim_c9_value_provided (fixture_name : String) (fc : Factory)
    (env : String → Value) (argnames : List String)
    (construct : List (String × Value) → Except PyExn Value)
    (inst : Value) (deferred : List DeferredFunction)
    (df : DeferredFunction) (decl : Declaration) (i : Value)
    (ctx : PostGenerationContext)
    (h : (model_fixture fixture_name fc env argnames construct).2
        = Except.ok (inst, deferred))
    (hdf : df ∈ deferred)
    (ha : df.action = DeferredAction.postgen_call decl i ctx) :
    (ctx.value_provided = true ↔ ctx.value ≠ Value.notProvided) := by
  obtain ⟨hcok, hdeq⟩ :=
    model_fixture_ok_inv fixture_name fc env argnames construct inst deferred h
  subst hdeq
  unfold build_deferred at hdf
  rcases List.mem_map.mp hdf with ⟨d, hdmem, hdf_eq⟩
  obtain ⟨a, v⟩ := d
  cases v
  case relatedFactory s =>
      subst hdf_eq
      simp [make_deferred_related, NamedDecl.value, NamedDecl.attr] at ha
  all_goals
    subst hdf_eq
    simp only [NamedDecl.value, NamedDecl.attr, make_deferred_postgen] at ha
    injection ha with h1 h2 h3
    subst h3
    cases hpv : (evaluate env (env (fixture_name ++ SEPARATOR ++ a))).1 <;>
      simp [Value.isNotProvided, hpv]

/-- Witness for C9 at a concrete factory with a post-generation declaration
whose extracted value is the `NotProvided` sentinel, so `value_provided` is
false. -/
theorem claim_c9_witness :
    ((PostGenerationContext.mk false Value.notProvided []).value_provided = true
      ↔ (PostGenerationContext.mk false Value.notProvided []).value
          ≠ Value.notProvided) :=
  claim_c9_value_provided "user" user_factory (fun _ => Value.notProvided) []
    (fun _ => Except.ok (Value.obj 1)) (Value.obj 1)
    [make_deferred_postgen user_factory "user" (Value.obj 1) "password"
      (.postGeneration []) (PostGenerationContext.mk false Value.notProvided [])]
    (make_deferred_postgen user_factory "user" (Value.obj 1) "password"
      (.postGeneration []) (PostGenerationContext.mk false Value.notProvided []))
    (.postGeneration []) (Value.obj 1)
    (PostGenerationContext.mk false Value.notProvided [])
    rfl (List.Mem.head _) rfl

/-- Claim C10: the deferred units correspond one-to-one, in order, to the
factory's post-generation declarations; a unit's reverse-association flag is
set exactly when the originating declaration is a `RelatedFactory` (units for
post-generation hooks carry `false`), and every unit is named by joining the
model fixture name and the attribute name with the separator. -/
theorem claim_c10_deferred_units (fixture_name : String) (fc : Factory)
    (env : String → Value) (argnames : List String)
    (construct : List (String × Value) → Except PyExn Value)
    (inst : Value) (deferred : List DeferredFunction)
    (p : NamedDecl × DeferredFunction)
    (h : (model_fixture fixture_name fc env argnames construct).2
        = Except.ok (inst, deferred))
    (hp : p ∈ (post_declarations fc).zip deferred) :
    deferred.length = (post_declarations fc).length
      ∧ p.2.is_related = p.1.value.is_related_factory
      ∧ p.2.name = fixture_name ++ SEPARATOR ++ p.1.attr := by
  obtain ⟨hcok, hdeq⟩ :=
    model_fixture_ok_inv fixture_name fc env argnames construct inst deferred h
  subst hdeq
  refine ⟨by simp [build_deferred], ?_⟩
  unfold build_deferred at hp
  rw [zip_self_map] at hp
  rcases List.mem_map.mp hp with ⟨d, hdmem, hpeq⟩
  subst hpeq
  obtain ⟨a, v⟩ := d
  cases v <;>
    simp [make_deferred_related, make_deferred_postgen,
      Declaration.is_related_factory, NamedDecl.attr, NamedDecl.value]

/-- Witness for C10 at the author factory, whose single post-generation
declaration is the reverse association `books`. -/
theorem claim_c10_witness :
    ([make_deferred_related author_factory "author" "books"].length
        = (post_declarations author_factory).length
      ∧ (make_deferred_related author_factory "author" "books").is_related
        = (Declaration.relatedFactory book_factory).is_related_factory
      ∧ (make_deferred_related author_factory "author" "books").name
        = "author" ++ SEPARATOR ++ "books") :=
  claim_c10_deferred_units "author" author_factory (fun _ => Value.pyNone) []
    (fun _ => Except.ok (Value.obj 3)) (Value.obj 3)
    [make_deferred_related author_factory "author" "books"]
    (NamedDecl.mk "books" (Declaration.relatedFactory book_factory),
      make_deferred_related author_factory "author" "books")
    rfl (List.Mem.head _)

end PytestFactoryboy
